import Mathlib

/-!
Verification of the realm reconciliation module
(`plugins/modules/identity/keycloak/keycloak_realm.py`).

The module's `main` function (after token acquisition) is a pure function of
(check mode, diff mode, `state` directive, `realm` parameter, the fetched
existing representation, the changeset derived from the module parameters, and
the representation returned by the post-action re-fetch).  We embed it here:

* A realm representation (a Python `dict`) is an association list
  `List (String × Value)` with unique keys; `pySet`/`pyUpdate` model
  `d[k] = v` and `d.update(c)`, `findVal` models `d[k]`/`in`, and `dictEq`
  models Python's order-insensitive structural `==` on dicts (nested dicts
  compared by value).
* `sanitize_cr` is the sanitizer (lines 578-591 of the source).
* `realm_params`/`buildChangeset`/`computeChangeset` are the attribute-mapper
  phase (lines 704-723).
* `reconcile` is the reconciler/executor phase (lines 691-815), with the two
  network fetch results passed in as oracles and every API call recorded in
  an explicit trace.
-/

/-- A JSON-like attribute value of a realm representation: string, integer,
boolean, list of strings, or nested mapping (the shapes the module's argument
spec produces and the wire format uses). -/
inductive Value where
  | vstr  (s : String)
  | vint  (n : Int)
  | vbool (b : Bool)
  | vlist (l : List String)
  | vobj  (m : List (String × Value))

/-- A realm representation: a Python dict from attribute name to value,
modelled as an insertion-ordered association list with unique keys. -/
abbrev RealmRep := List (String × Value)

/-- `findVal k d` models the Python dict lookup `d[k]` / `d.get(k)`
(`none` when the key is absent). -/
def findVal (k : String) : RealmRep → Option Value
  | [] => none
  | (k2, v) :: rest => if k2 == k then some v else findVal k rest

/-- `containsKey d k` models the Python membership test `k in d`. -/
def containsKey (d : RealmRep) (k : String) : Bool :=
  d.any (fun kv => kv.1 == k)

/-- `pySet d k v` models the Python dict assignment `d[k] = v`: replace the
value of an existing key in place, otherwise append the new pair. -/
def pySet (d : RealmRep) (k : String) (v : Value) : RealmRep :=
  match d with
  | [] => [(k, v)]
  | (k2, v2) :: rest => if k2 == k then (k2, v) :: rest else (k2, v2) :: pySet rest k v

/-- `pyUpdate d c` models `d.copy()` followed by `.update(c)` (lines 726-727):
each pair of `c` is assigned into (a copy of) `d` in order. -/
def pyUpdate (d : RealmRep) : RealmRep → RealmRep
  | [] => d
  | (k, v) :: rest => pyUpdate (pySet d k v) rest

mutual

/-- Python's `==` on two attribute values: scalars and string lists by value,
nested dicts order-insensitively (same size and every key of the first found
with an equal value in the second; on dicts, whose keys are unique, this is
exactly mapping equality). -/
def valEq : Value → Value → Bool
  | .vstr a, w => match w with | .vstr b => a == b | _ => false
  | .vint a, w => match w with | .vint b => a == b | _ => false
  | .vbool a, w => match w with | .vbool b => a == b | _ => false
  | .vlist a, w => match w with | .vlist b => a == b | _ => false
  | .vobj a, w => match w with
      | .vobj b => a.length == b.length && subKeysEq a b
      | _ => false

/-- Every key of the first representation is present in the second with an
equal value. -/
def subKeysEq : RealmRep → RealmRep → Bool
  | [], _ => true
  | (k, v) :: rest, b =>
      (match findVal k b with
       | some w => valEq v w
       | none => false) && subKeysEq rest b

end

/-- Python's `==` on two realm representations (`before_realm == after_realm`,
`before_realm != desired_realm`): mapping equality, order irrelevant, nested
structures compared by value. -/
def dictEq (a b : RealmRep) : Bool :=
  a.length == b.length && subKeysEq a b

/-- `sanitize_cr` (source lines 578-591): copy the representation, mask a
top-level `secret` value, and mask `saml.signing.private.key` inside a
(copied) `attributes` sub-dict.  A non-dict `attributes` value is left alone
(the module only ever supplies dicts there). -/
def sanitize_cr (realmrep : RealmRep) : RealmRep :=
  let result := realmrep
  let result := if containsKey result "secret"
    then pySet result "secret" (.vstr "********") else result
  match findVal "attributes" result with
  | some (.vobj attrs) =>
      if containsKey attrs "saml.signing.private.key" then
        pySet result "attributes"
          (.vobj (pySet attrs "saml.signing.private.key" (.vstr "********")))
      else result
  | _ => result

/-- Split a character list at underscores (the empty list splits to one empty
word, matching Python `"".split("_") == [""]`). -/
def splitUnderscore : List Char → List (List Char)
  | [] => [[]]
  | c :: rest =>
      let r := splitUnderscore rest
      if c == '_' then [] :: r
      else
        match r with
        | [] => [[c]]
        | w :: ws => (c :: w) :: ws

/-- Capitalize the first character of an underscore-separated word. -/
def capitalizeChars : List Char → List Char
  | [] => []
  | c :: cs => c.toUpper :: cs

/-- Modelled from the spec: the caller-facing to wire naming transform
(snake_case to camelCase) performed by the shared `camel` helper, which lives
in the collection's `module_utils` outside the sources given here.  Per the
spec it is "a pure, deterministic, reversible name transform — e.g.
underscore-separated to camel-case": the first underscore-separated word is
kept, each following word is capitalized, and the words are concatenated. -/
def camel (words : String) : String :=
  match splitUnderscore words.data with
  | [] => ""
  | w :: ws => String.mk (w ++ (ws.map capitalizeChars).flatten)

/-- The module's parameter mapping (`module.params`): name to value, where
`none` models Python `None` (parameter not supplied). -/
abbrev Params := List (String × Option Value)

/-- `paramsGet params k` models `module.params.get(k)`: `none` both for a
missing key and for a key explicitly mapped to `None`. -/
def paramsGet (params : Params) (k : String) : Option Value :=
  match params with
  | [] => none
  | (k2, v) :: rest => if k2 == k then v else paramsGet rest k

/-- Modelled from the spec: the connection/auth parameter names contributed by
the shared argument-spec helper (outside the sources given here); together
with `state` they form the exclusion set of the attribute mapper. -/
def keycloak_argument_spec_keys : List String :=
  ["auth_keycloak_url", "auth_client_id", "auth_realm", "auth_client_secret",
   "auth_username", "auth_password", "token", "validate_certs"]

/-- `params_to_ignore` (line 705): the connection/auth parameter names plus
the `state` directive. -/
def params_to_ignore : List String :=
  keycloak_argument_spec_keys ++ ["state"]

/-- `realm_params` (lines 708-710): the parameter names that are neither
ignored nor null, in parameter order. -/
def realm_params (params : Params) (ignore : List String) : List String :=
  (params.map Prod.fst).filter
    (fun x => !(ignore.contains x) && (paramsGet params x).isSome)

/-- The loop of lines 721-723: `changeset[camel(p)] = module.params.get(p)`
for each kept parameter name (the filter guarantees the value is non-null). -/
def buildChangeset (params : Params) : List String → RealmRep → RealmRep
  | [], acc => acc
  | p :: rest, acc =>
      buildChangeset params rest
        (match paramsGet params p with
         | some v => pySet acc (camel p) v
         | none => acc)

/-- The changeset computed by lines 704-723 from the raw parameters and the
exclusion list. -/
def computeChangeset (params : Params) (ignore : List String) : RealmRep :=
  buildChangeset params (realm_params params ignore) []

/-- Specification-side description of the kept parameters: the caller-supplied
pairs whose value is non-null and whose name is not excluded, in order. -/
def keptPairs (params : Params) (ignore : List String) : List (String × Value) :=
  params.filterMap (fun kv =>
    match kv.2 with
    | some v => if ignore.contains kv.1 then none else some (kv.1, v)
    | none => none)

/-- Modelled from the spec: Ansible's `required_one_of` precondition check
(the validation collaborator is outside the sources given here) — every listed
group must contain at least one supplied (non-null) parameter. -/
def requiredOneOf (groups : List (List String)) (params : Params) : Bool :=
  groups.all (fun g => g.any (fun k => (paramsGet params k).isSome))

/-- The `required_one_of` groups the module declares (lines 687-688). -/
def realmRequiredOneOf : List (List String) :=
  [["id", "realm", "enabled"],
   ["token", "auth_realm", "auth_username", "auth_password"]]

/-- Rendering of a value into a result message (Python `'%s' % v`).  Only the
scalar cases are exercised by realistic realm identifiers; the container cases
abstract Python's `str`. -/
def pyStr : Value → String
  | .vstr s => s
  | .vint n => toString n
  | .vbool b => if b then "True" else "False"
  | .vlist l => String.intercalate ", " l
  | .vobj m => String.intercalate ", " (m.map Prod.fst)

/-- One side of the `diff` result entry: the empty string `''` or a realm
representation. -/
inductive DiffSide where
  | emptyStr
  | rep (r : RealmRep)

/-- The `diff` entry of the result dict: `{}` initially, or
`dict(before=..., after=...)`. -/
inductive DiffVal where
  | unset
  | mk (before after : DiffSide)

/-- The result dict built by `main` (line 691 initializes every field). -/
structure ModuleResult where
  changed : Bool
  msg : String
  diff : DiffVal
  proposed : RealmRep
  existing : RealmRep
  end_state : RealmRep

/-- A call to the Keycloak API client, as issued by `main`. -/
inductive ApiCall where
  | getRealmById (realm : Option Value)
  | createRealm (r : RealmRep)
  | updateRealm (r : RealmRep) (realm : Option Value)
  | deleteRealm (realm : Option Value)

/-- How the invocation ends: `module.exit_json(**result)`,
`module.fail_json(msg=...)`, or a Python `KeyError` from a missing dict key
(the message formatting reads `...['id']`). -/
inductive Outcome where
  | exitJson (r : ModuleResult)
  | failJson (msg : String)
  | keyError

/-- The reconciler/executor phase of `main` (source lines 691-815), starting
after the changeset has been computed.  `fetched` is what
`kc.get_realm_by_id(realm=realm)` returned (line 713, `none` for a missing
realm); `refetch` is what the post-action re-fetch returns on whichever path
performs one (lines 758 and 783).  The second component records every API
call in order. -/
def reconcile (check_mode diff_mode : Bool) (state : String) (realm : Option Value)
    (fetched : Option RealmRep) (changeset : RealmRep) (refetch : RealmRep) :
    Outcome × List ApiCall :=
  -- line 691
  let result0 : ModuleResult :=
    { changed := false, msg := "", diff := .unset,
      proposed := [], existing := [], end_state := [] }
  -- lines 713-716
  let calls0 := [ApiCall.getRealmById realm]
  let before_realm := fetched.getD []
  -- lines 726-727
  let desired_realm := pyUpdate before_realm changeset
  -- lines 729-731
  let before_realm_sanitized := sanitize_cr before_realm
  let result1 := { result0 with
    proposed := sanitize_cr changeset, existing := before_realm_sanitized }
  -- line 734: `if not before_realm`
  if before_realm.isEmpty then
    if state == "absent" then
      -- lines 736-742
      let result2 := if diff_mode
        then { result1 with diff := .mk .emptyStr .emptyStr } else result1
      (.exitJson { result2 with
          changed := false
          end_state := []
          msg := "Realm does not exist, doing nothing." }, calls0)
    else
      -- lines 744-748
      let result2 := { result1 with changed := true }
      match findVal "id" desired_realm with
      | none => (.failJson "id needs to be specified when creating a new realm", calls0)
      | some idv =>
          -- lines 750-751
          let result3 := if diff_mode
            then { result2 with diff := .mk .emptyStr (.rep (sanitize_cr desired_realm)) }
            else result2
          -- lines 753-754
          if check_mode then (.exitJson result3, calls0)
          else
            -- lines 756-763
            let calls1 := calls0 ++ [.createRealm desired_realm, .getRealmById (some idv)]
            (.exitJson { result3 with
                end_state := sanitize_cr refetch
                msg := "Realm " ++ pyStr idv ++ " has been created." }, calls1)
  else
    if state == "present" then
      -- line 770
      let result2 := { result1 with changed := true }
      if check_mode then
        -- lines 771-778
        let d := DiffVal.mk (.rep before_realm_sanitized) (.rep (sanitize_cr desired_realm))
        let result3 := if diff_mode then { result2 with diff := d } else result2
        (.exitJson { result3 with changed := !(dictEq before_realm desired_realm) }, calls0)
      else
        -- lines 780-795
        let calls1 := calls0 ++ [.updateRealm desired_realm realm, .getRealmById realm]
        let after_realm := refetch
        let result3 := if dictEq before_realm after_realm
          then { result2 with changed := false } else result2
        let result4 := { result3 with end_state := sanitize_cr after_realm }
        let d := DiffVal.mk (.rep before_realm_sanitized) (.rep (sanitize_cr after_realm))
        let result5 := if diff_mode then { result4 with diff := d } else result4
        match findVal "id" desired_realm with
        | some idv =>
            (.exitJson { result5 with msg := "Realm " ++ pyStr idv ++ " has been updated." },
             calls1)
        | none => (.keyError, calls1)
    else
      -- lines 797-815
      let result2 := { result1 with changed := true }
      let result3 := if diff_mode
        then { result2 with diff := .mk (.rep before_realm_sanitized) .emptyStr }
        else result2
      if check_mode then (.exitJson result3, calls0)
      else
        let calls1 := calls0 ++ [.deleteRealm realm]
        let result4 := { result3 with proposed := [], end_state := [] }
        match findVal "id" before_realm with
        | some idv =>
            (.exitJson { result4 with msg := "Realm " ++ pyStr idv ++ " has been deleted." },
             calls1)
        | none => (.keyError, calls1)

/-- Whether an API call mutates remote state. -/
def isMutating : ApiCall → Bool
  | .createRealm _ => true
  | .updateRealm _ _ => true
  | .deleteRealm _ => true
  | .getRealmById _ => false

/-- The state-mutating calls of a trace. -/
def mutatingCalls (cs : List ApiCall) : List ApiCall :=
  cs.filter isMutating

/-- The result reported via `module.exit_json`, when the run got there. -/
def resultOf : Outcome → Option ModuleResult
  | .exitJson r => some r
  | _ => none

/-- The `changed` flag reported via `module.exit_json`, when the run got
there. -/
def changedOf (o : Outcome) : Option Bool :=
  (resultOf o).map ModuleResult.changed

/-- The first defined of two optional values (how a key lookup in a merged
dict resolves: changeset first, existing second). -/
def firstSome (a b : Option Value) : Option Value :=
  match a with
  | some v => some v
  | none => b

/-- A representation is redaction-safe: a top-level `secret` value, if any, is
the redaction marker, and so is a `saml.signing.private.key` value inside an
`attributes` sub-mapping, if any. -/
def maskedOK (r : RealmRep) : Prop :=
  (∀ v, findVal "secret" r = some v → v = Value.vstr "********")
  ∧ (∀ attrs, findVal "attributes" r = some (Value.vobj attrs) →
      ∀ v, findVal "saml.signing.private.key" attrs = some v → v = Value.vstr "********")

/-- A `diff` side is redaction-safe. -/
def diffSideOK : DiffSide → Prop
  | .emptyStr => True
  | .rep r => maskedOK r

/-- A `diff` entry is redaction-safe. -/
def diffOK : DiffVal → Prop
  | .unset => True
  | .mk b a => diffSideOK b ∧ diffSideOK a

/-- Every representation inside a reported result is redaction-safe. -/
def outcomeFieldsOK : Outcome → Prop
  | .exitJson r => maskedOK r.proposed ∧ maskedOK r.existing ∧ maskedOK r.end_state
      ∧ diffOK r.diff
  | _ => True

/-! ### Association-list lemmas -/

theorem findVal_pySet_same (d : RealmRep) (k : String) (v : Value) :
    findVal k (pySet d k v) = some v := by
  induction d with
  | nil => simp [pySet, findVal]
  | cons kv rest ih =>
      obtain ⟨k2, v2⟩ := kv
      by_cases h : k2 = k
      · simp [pySet, findVal, h]
      · simp [pySet, findVal, h, ih]

theorem findVal_pySet_other (d : RealmRep) (k1 k2 : String) (v : Value)
    (h : ¬ k1 = k2) :
    findVal k1 (pySet d k2 v) = findVal k1 d := by
  have h21 : ¬ k2 = k1 := fun hh => h (Eq.symm hh)
  induction d with
  | nil => simp [pySet, findVal, h21]
  | cons kv rest ih =>
      obtain ⟨k3, v3⟩ := kv
      by_cases h32 : k3 = k2
      · subst h32
        simp [pySet, findVal, h21]
      · simp [pySet, findVal, h32, ih]

theorem findVal_of_not_mem (d : RealmRep) (k : String)
    (h : k ∉ d.map Prod.fst) :
    findVal k d = none := by
  induction d with
  | nil => rfl
  | cons kv rest ih =>
      obtain ⟨k2, v2⟩ := kv
      simp only [List.map_cons, List.mem_cons, not_or] at h
      have h2 : ¬ k2 = k := fun hh => h.1 (Eq.symm hh)
      simp [findVal, h2, ih h.2]

theorem findVal_of_not_containsKey (d : RealmRep) (k : String)
    (h : containsKey d k = false) :
    findVal k d = none := by
  induction d with
  | nil => rfl
  | cons kv rest ih =>
      obtain ⟨k2, v2⟩ := kv
      simp only [containsKey, List.any_cons, Bool.or_eq_false_iff] at h
      have h2 : ¬ k2 = k := by simpa using h.1
      simp [findVal, h2]
      exact ih (by simpa [containsKey] using h.2)

theorem pySet_of_not_mem (d : RealmRep) (k : String) (v : Value)
    (h : k ∉ d.map Prod.fst) :
    pySet d k v = d ++ [(k, v)] := by
  induction d with
  | nil => rfl
  | cons kv rest ih =>
      obtain ⟨k2, v2⟩ := kv
      simp only [List.map_cons, List.mem_cons, not_or] at h
      have h2 : ¬ k2 = k := fun hh => h.1 (Eq.symm hh)
      simp [pySet, h2, ih h.2]

theorem pyUpdate_disjoint (c : RealmRep) : ∀ d : RealmRep,
    (c.map Prod.fst).Nodup → (∀ k ∈ c.map Prod.fst, k ∉ d.map Prod.fst) →
    pyUpdate d c = d ++ c := by
  induction c with
  | nil => intro d _ _; simp [pyUpdate]
  | cons kv rest ih =>
      intro d hnd hdisj
      obtain ⟨k, v⟩ := kv
      simp only [List.map_cons, List.nodup_cons] at hnd
      have hk : k ∉ d.map Prod.fst := hdisj k (by simp)
      have hstep : pySet d k v = d ++ [(k, v)] := pySet_of_not_mem d k v hk
      have hrest : ∀ k2 ∈ rest.map Prod.fst, k2 ∉ (d ++ [(k, v)]).map Prod.fst := by
        intro k2 hk2
        simp only [List.map_append, List.mem_append, List.map_cons, List.map_nil,
          List.mem_singleton]
        push_neg
        refine ⟨hdisj k2 (by simp [hk2]), ?_⟩
        intro heq
        exact hnd.1 (heq ▸ hk2)
      calc pyUpdate d ((k, v) :: rest)
          = pyUpdate (d ++ [(k, v)]) rest := by
            simp only [pyUpdate]; rw [hstep]
        _ = (d ++ [(k, v)]) ++ rest := ih (d ++ [(k, v)]) hnd.2 hrest
        _ = d ++ ((k, v) :: rest) := by simp

theorem findVal_pyUpdate (c : RealmRep) : ∀ d : RealmRep,
    (c.map Prod.fst).Nodup → ∀ k : String,
    findVal k (pyUpdate d c) = firstSome (findVal k c) (findVal k d) := by
  induction c with
  | nil => intro d _ k; simp [pyUpdate, findVal, firstSome]
  | cons kv rest ih =>
      intro d hnd k
      obtain ⟨k0, v0⟩ := kv
      simp only [List.map_cons, List.nodup_cons] at hnd
      have hstep : pyUpdate d ((k0, v0) :: rest) = pyUpdate (pySet d k0 v0) rest := by
        simp only [pyUpdate]
      rw [hstep, ih (pySet d k0 v0) hnd.2 k]
      by_cases hk : k0 = k
      · subst hk
        have h1 : findVal k0 rest = none := findVal_of_not_mem rest k0 hnd.1
        simp [findVal, h1, firstSome, findVal_pySet_same]
      · have h2 : findVal k (pySet d k0 v0) = findVal k d :=
          findVal_pySet_other d k k0 v0 (fun hh => hk (Eq.symm hh))
        simp [findVal, hk, h2]

/-! ### Path lemmas: the outcome of `reconcile` on each branch -/

theorem sanitize_cr_nil : sanitize_cr [] = [] := rfl

theorem reconcile_absent_absent (check dm : Bool) (realm : Option Value)
    (cs rf : RealmRep) :
    reconcile check dm "absent" realm none cs rf
      = (.exitJson { changed := false
                     msg := "Realm does not exist, doing nothing."
                     diff := if dm then DiffVal.mk .emptyStr .emptyStr else .unset
                     proposed := sanitize_cr cs
                     existing := []
                     end_state := [] },
         [ApiCall.getRealmById realm]) := by
  cases dm <;> simp [reconcile, sanitize_cr_nil]

theorem reconcile_create_fail (check dm : Bool) (realm : Option Value)
    (cs rf : RealmRep) (hid : findVal "id" (pyUpdate [] cs) = none) :
    reconcile check dm "present" realm none cs rf
      = (.failJson "id needs to be specified when creating a new realm",
         [ApiCall.getRealmById realm]) := by
  simp [reconcile, hid]

theorem reconcile_create_check (dm : Bool) (realm : Option Value)
    (cs rf : RealmRep) (idv : Value)
    (hid : findVal "id" (pyUpdate [] cs) = some idv) :
    reconcile true dm "present" realm none cs rf
      = (.exitJson { changed := true
                     msg := ""
                     diff := if dm then
                         DiffVal.mk .emptyStr (.rep (sanitize_cr (pyUpdate [] cs)))
                       else .unset
                     proposed := sanitize_cr cs
                     existing := []
                     end_state := [] },
         [ApiCall.getRealmById realm]) := by
  cases dm <;> simp [reconcile, hid, sanitize_cr_nil]

theorem reconcile_create_real (dm : Bool) (realm : Option Value)
    (cs rf : RealmRep) (idv : Value)
    (hid : findVal "id" (pyUpdate [] cs) = some idv) :
    reconcile false dm "present" realm none cs rf
      = (.exitJson { changed := true
                     msg := "Realm " ++ pyStr idv ++ " has been created."
                     diff := if dm then
                         DiffVal.mk .emptyStr (.rep (sanitize_cr (pyUpdate [] cs)))
                       else .unset
                     proposed := sanitize_cr cs
                     existing := []
                     end_state := sanitize_cr rf },
         [ApiCall.getRealmById realm, ApiCall.createRealm (pyUpdate [] cs),
          ApiCall.getRealmById (some idv)]) := by
  cases dm <;> simp [reconcile, hid, sanitize_cr_nil]

theorem reconcile_update_check (dm : Bool) (realm : Option Value)
    (before cs rf : RealmRep) (hb : before.isEmpty = false) :
    reconcile true dm "present" realm (some before) cs rf
      = (.exitJson { changed := !(dictEq before (pyUpdate before cs))
                     msg := ""
                     diff := if dm then
                         DiffVal.mk (.rep (sanitize_cr before))
                           (.rep (sanitize_cr (pyUpdate before cs)))
                       else .unset
                     proposed := sanitize_cr cs
                     existing := sanitize_cr before
                     end_state := [] },
         [ApiCall.getRealmById realm]) := by
  cases dm <;> simp [reconcile, hb]

theorem reconcile_update_real_id (dm : Bool) (realm : Option Value)
    (before cs rf : RealmRep) (idv : Value) (hb : before.isEmpty = false)
    (hid : findVal "id" (pyUpdate before cs) = some idv) :
    reconcile false dm "present" realm (some before) cs rf
      = (.exitJson { changed := !(dictEq before rf)
                     msg := "Realm " ++ pyStr idv ++ " has been updated."
                     diff := if dm then
                         DiffVal.mk (.rep (sanitize_cr before)) (.rep (sanitize_cr rf))
                       else .unset
                     proposed := sanitize_cr cs
                     existing := sanitize_cr before
                     end_state := sanitize_cr rf },
         [ApiCall.getRealmById realm, ApiCall.updateRealm (pyUpdate before cs) realm,
          ApiCall.getRealmById realm]) := by
  cases dm <;> rcases he : dictEq before rf <;> simp [reconcile, hb, hid, he]

theorem reconcile_update_real_noid (dm : Bool) (realm : Option Value)
    (before cs rf : RealmRep) (hb : before.isEmpty = false)
    (hid : findVal "id" (pyUpdate before cs) = none) :
    reconcile false dm "present" realm (some before) cs rf
      = (.keyError,
         [ApiCall.getRealmById realm, ApiCall.updateRealm (pyUpdate before cs) realm,
          ApiCall.getRealmById realm]) := by
  cases dm <;> rcases he : dictEq before rf <;> simp [reconcile, hb, hid, he]

theorem reconcile_delete_check (dm : Bool) (realm : Option Value)
    (before cs rf : RealmRep) (hb : before.isEmpty = false) :
    reconcile true dm "absent" realm (some before) cs rf
      = (.exitJson { changed := true
                     msg := ""
                     diff := if dm then
                         DiffVal.mk (.rep (sanitize_cr before)) .emptyStr
                       else .unset
                     proposed := sanitize_cr cs
                     existing := sanitize_cr before
                     end_state := [] },
         [ApiCall.getRealmById realm]) := by
  cases dm <;> simp [reconcile, hb]

theorem reconcile_delete_real_id (dm : Bool) (realm : Option Value)
    (before cs rf : RealmRep) (idv : Value) (hb : before.isEmpty = false)
    (hid : findVal "id" before = some idv) :
    reconcile false dm "absent" realm (some before) cs rf
      = (.exitJson { changed := true
                     msg := "Realm " ++ pyStr idv ++ " has been deleted."
                     diff := if dm then
                         DiffVal.mk (.rep (sanitize_cr before)) .emptyStr
                       else .unset
                     proposed := []
                     existing := sanitize_cr before
                     end_state := [] },
         [ApiCall.getRealmById realm, ApiCall.deleteRealm realm]) := by
  cases dm <;> simp [reconcile, hb, hid]

theorem reconcile_delete_real_noid (dm : Bool) (realm : Option Value)
    (before cs rf : RealmRep) (hb : before.isEmpty = false)
    (hid : findVal "id" before = none) :
    reconcile false dm "absent" realm (some before) cs rf
      = (.keyError, [ApiCall.getRealmById realm, ApiCall.deleteRealm realm]) := by
  cases dm <;> simp [reconcile, hb, hid]

/-! ### Sanitizer lemmas -/

theorem maskedOK_nil : maskedOK [] := by
  constructor
  · intro v hv; cases hv
  · intro attrs heq; cases heq

theorem findVal_sanitize_other (r : RealmRep) (k : String)
    (hks : ¬ k = "secret") (hka : ¬ k = "attributes") :
    findVal k (sanitize_cr r) = findVal k r := by
  have ha1 : findVal "attributes" (pySet r "secret" (Value.vstr "********"))
      = findVal "attributes" r :=
    findVal_pySet_other r "attributes" "secret" _ (by decide)
  have hk1 : ∀ x, findVal k (pySet r "secret" x) = findVal k r :=
    fun x => findVal_pySet_other r k "secret" x hks
  rcases hc : containsKey r "secret" with _ | _
  · rcases hattr : findVal "attributes" r with _ | v
    · simp [sanitize_cr, hc, hattr]
    · rcases v with s | n | b | l | attrs
      · simp [sanitize_cr, hc, hattr]
      · simp [sanitize_cr, hc, hattr]
      · simp [sanitize_cr, hc, hattr]
      · simp [sanitize_cr, hc, hattr]
      · rcases hck : containsKey attrs "saml.signing.private.key" with _ | _
        · simp [sanitize_cr, hc, hattr, hck]
        · have hstep : findVal k (pySet r "attributes"
              (Value.vobj (pySet attrs "saml.signing.private.key" (Value.vstr "********"))))
              = findVal k r := findVal_pySet_other r k "attributes" _ hka
          simp [sanitize_cr, hc, hattr, hck, hstep]
  · rcases hattr : findVal "attributes" r with _ | v
    · simp [sanitize_cr, hc, ha1, hattr, hk1]
    · rcases v with s | n | b | l | attrs
      · simp [sanitize_cr, hc, ha1, hattr, hk1]
      · simp [sanitize_cr, hc, ha1, hattr, hk1]
      · simp [sanitize_cr, hc, ha1, hattr, hk1]
      · simp [sanitize_cr, hc, ha1, hattr, hk1]
      · rcases hck : containsKey attrs "saml.signing.private.key" with _ | _
        · simp [sanitize_cr, hc, ha1, hattr, hck, hk1]
        · have hstep : findVal k (pySet (pySet r "secret" (Value.vstr "********")) "attributes"
              (Value.vobj (pySet attrs "saml.signing.private.key" (Value.vstr "********"))))
              = findVal k (pySet r "secret" (Value.vstr "********")) :=
            findVal_pySet_other _ k "attributes" _ hka
          simp [sanitize_cr, hc, ha1, hattr, hck, hstep, hk1]

theorem maskedOK_intro (r : RealmRep)
    (hsec : findVal "secret" r = none ∨ findVal "secret" r = some (Value.vstr "********"))
    (hattr : ∀ attrs, findVal "attributes" r = some (Value.vobj attrs) →
        ∀ v, findVal "saml.signing.private.key" attrs = some v → v = Value.vstr "********") :
    maskedOK r := by
  refine ⟨?_, hattr⟩
  intro v hv
  rcases hsec with h | h
  · rw [h] at hv; cases hv
  · rw [h] at hv; exact (Option.some.inj hv).symm

theorem maskedOK_sanitize (r : RealmRep) : maskedOK (sanitize_cr r) := by
  rcases hc : containsKey r "secret" with _ | _
  · -- no top-level secret: the first step leaves the representation alone
    have hsec : findVal "secret" r = none := findVal_of_not_containsKey r "secret" hc
    rcases hattr : findVal "attributes" r with _ | v
    · have hs : sanitize_cr r = r := by simp [sanitize_cr, hc, hattr]
      rw [hs]
      refine maskedOK_intro r (Or.inl hsec) ?_
      intro attrs heq
      rw [hattr] at heq
      exact Option.noConfusion heq
    · rcases v with s | n | b | l | attrs
      · have hs : sanitize_cr r = r := by simp [sanitize_cr, hc, hattr]
        rw [hs]
        refine maskedOK_intro r (Or.inl hsec) ?_
        intro attrs0 heq
        rw [hattr] at heq
        simp at heq
      · have hs : sanitize_cr r = r := by simp [sanitize_cr, hc, hattr]
        rw [hs]
        refine maskedOK_intro r (Or.inl hsec) ?_
        intro attrs0 heq
        rw [hattr] at heq
        simp at heq
      · have hs : sanitize_cr r = r := by simp [sanitize_cr, hc, hattr]
        rw [hs]
        refine maskedOK_intro r (Or.inl hsec) ?_
        intro attrs0 heq
        rw [hattr] at heq
        simp at heq
      · have hs : sanitize_cr r = r := by simp [sanitize_cr, hc, hattr]
        rw [hs]
        refine maskedOK_intro r (Or.inl hsec) ?_
        intro attrs0 heq
        rw [hattr] at heq
        simp at heq
      · rcases hck : containsKey attrs "saml.signing.private.key" with _ | _
        · have hs : sanitize_cr r = r := by simp [sanitize_cr, hc, hattr, hck]
          rw [hs]
          refine maskedOK_intro r (Or.inl hsec) ?_
          intro attrs0 heq v hv
          rw [hattr] at heq
          obtain rfl : attrs = attrs0 := by
            injection heq with h1
            injection h1
          rw [findVal_of_not_containsKey attrs "saml.signing.private.key" hck] at hv
          cases hv
        · have hs : sanitize_cr r = pySet r "attributes"
              (Value.vobj (pySet attrs "saml.signing.private.key" (Value.vstr "********"))) := by
            simp [sanitize_cr, hc, hattr, hck]
          rw [hs]
          have hsec2 : findVal "secret" (pySet r "attributes"
              (Value.vobj (pySet attrs "saml.signing.private.key" (Value.vstr "********"))))
              = findVal "secret" r :=
            findVal_pySet_other r "secret" "attributes" _ (by decide)
          refine maskedOK_intro _ (Or.inl (hsec2.trans hsec)) ?_
          intro attrs0 heq v hv
          rw [findVal_pySet_same] at heq
          obtain rfl : pySet attrs "saml.signing.private.key" (Value.vstr "********") = attrs0 := by
            injection heq with h1
            injection h1
          rw [findVal_pySet_same] at hv
          exact (Option.some.inj hv).symm
  · -- top-level secret present and masked by the first step
    have hsec1 : findVal "secret" (pySet r "secret" (Value.vstr "********"))
        = some (Value.vstr "********") := findVal_pySet_same r "secret" _
    have ha1 : findVal "attributes" (pySet r "secret" (Value.vstr "********"))
        = findVal "attributes" r :=
      findVal_pySet_other r "attributes" "secret" _ (by decide)
    rcases hattr : findVal "attributes" r with _ | v
    · have hs : sanitize_cr r = pySet r "secret" (Value.vstr "********") := by
        simp [sanitize_cr, hc, ha1, hattr]
      rw [hs]
      refine maskedOK_intro _ (Or.inr hsec1) ?_
      intro attrs0 heq
      rw [ha1, hattr] at heq
      exact Option.noConfusion heq
    · rcases v with s | n | b | l | attrs
      · have hs : sanitize_cr r = pySet r "secret" (Value.vstr "********") := by
          simp [sanitize_cr, hc, ha1, hattr]
        rw [hs]
        refine maskedOK_intro _ (Or.inr hsec1) ?_
        intro attrs0 heq
        rw [ha1, hattr] at heq
        simp at heq
      · have hs : sanitize_cr r = pySet r "secret" (Value.vstr "********") := by
          simp [sanitize_cr, hc, ha1, hattr]
        rw [hs]
        refine maskedOK_intro _ (Or.inr hsec1) ?_
        intro attrs0 heq
        rw [ha1, hattr] at heq
        simp at heq
      · have hs : sanitize_cr r = pySet r "secret" (Value.vstr "********") := by
          simp [sanitize_cr, hc, ha1, hattr]
        rw [hs]
        refine maskedOK_intro _ (Or.inr hsec1) ?_
        intro attrs0 heq
        rw [ha1, hattr] at heq
        simp at heq
      · have hs : sanitize_cr r = pySet r "secret" (Value.vstr "********") := by
          simp [sanitize_cr, hc, ha1, hattr]
        rw [hs]
        refine maskedOK_intro _ (Or.inr hsec1) ?_
        intro attrs0 heq
        rw [ha1, hattr] at heq
        simp at heq
      · rcases hck : containsKey attrs "saml.signing.private.key" with _ | _
        · have hs : sanitize_cr r = pySet r "secret" (Value.vstr "********") := by
            simp [sanitize_cr, hc, ha1, hattr, hck]
          rw [hs]
          refine maskedOK_intro _ (Or.inr hsec1) ?_
          intro attrs0 heq v hv
          rw [ha1, hattr] at heq
          obtain rfl : attrs = attrs0 := by
            injection heq with h1
            injection h1
          rw [findVal_of_not_containsKey attrs "saml.signing.private.key" hck] at hv
          cases hv
        · have hs : sanitize_cr r = pySet (pySet r "secret" (Value.vstr "********")) "attributes"
              (Value.vobj (pySet attrs "saml.signing.private.key" (Value.vstr "********"))) := by
            simp [sanitize_cr, hc, ha1, hattr, hck]
          rw [hs]
          have hsec2 : findVal "secret" (pySet (pySet r "secret" (Value.vstr "********")) "attributes"
              (Value.vobj (pySet attrs "saml.signing.private.key" (Value.vstr "********"))))
              = findVal "secret" (pySet r "secret" (Value.vstr "********")) :=
            findVal_pySet_other _ "secret" "attributes" _ (by decide)
          refine maskedOK_intro _ (Or.inr (hsec2.trans hsec1)) ?_
          intro attrs0 heq v hv
          rw [findVal_pySet_same] at heq
          obtain rfl : pySet attrs "saml.signing.private.key" (Value.vstr "********") = attrs0 := by
            injection heq with h1
            injection h1
          rw [findVal_pySet_same] at hv
          exact (Option.some.inj hv).symm

theorem outcomeFieldsOK_reconcile (check dm : Bool) (state : String) (realm : Option Value)
    (fetched : Option RealmRep) (cs rf : RealmRep) :
    outcomeFieldsOK (reconcile check dm state realm fetched cs rf).1 := by
  by_cases hemp : (fetched.getD []).isEmpty = true
  · by_cases hst : (state == "absent") = true
    · cases dm <;>
        simp [reconcile, hemp, hst, outcomeFieldsOK, diffOK, diffSideOK,
          maskedOK_sanitize, maskedOK_nil, sanitize_cr_nil]
    · rcases hid : findVal "id" (pyUpdate (fetched.getD []) cs) with _ | idv
      · simp [reconcile, hemp, hst, hid, outcomeFieldsOK]
      · cases check <;> cases dm <;>
          simp [reconcile, hemp, hst, hid, outcomeFieldsOK, diffOK, diffSideOK,
            maskedOK_sanitize, maskedOK_nil, sanitize_cr_nil]
  · by_cases hst : (state == "present") = true
    · cases check
      · rcases hid : findVal "id" (pyUpdate (fetched.getD []) cs) with _ | idv <;>
          rcases he : dictEq (fetched.getD []) rf with _ | _ <;> cases dm <;>
            simp [reconcile, hemp, hst, hid, he, outcomeFieldsOK, diffOK, diffSideOK,
              maskedOK_sanitize, maskedOK_nil]
      · cases dm <;>
          simp [reconcile, hemp, hst, outcomeFieldsOK, diffOK, diffSideOK,
            maskedOK_sanitize, maskedOK_nil]
    · cases check
      · rcases hid : findVal "id" (fetched.getD []) with _ | idv <;> cases dm <;>
          simp [reconcile, hemp, hst, hid, outcomeFieldsOK, diffOK, diffSideOK,
            maskedOK_sanitize, maskedOK_nil]
      · cases dm <;>
          simp [reconcile, hemp, hst, outcomeFieldsOK, diffOK, diffSideOK,
            maskedOK_sanitize, maskedOK_nil]

/-! ### Attribute-mapper lemmas -/

theorem paramsGet_of_mem (params : Params) (k : String) (v : Option Value)
    (hnd : (params.map Prod.fst).Nodup) (h : (k, v) ∈ params) :
    paramsGet params k = v := by
  induction params with
  | nil => cases h
  | cons hd rest ih =>
      obtain ⟨k0, v0⟩ := hd
      simp only [List.map_cons, List.nodup_cons] at hnd
      rcases List.mem_cons.mp h with h1 | h1
      · injection h1 with e1 e2
        subst e1
        subst e2
        simp [paramsGet]
      · have hne : ¬ k0 = k :=
          fun hh => hnd.1 (hh ▸ List.mem_map_of_mem Prod.fst h1)
        simp [paramsGet, hne, ih hnd.2 h1]

theorem mem_keptPairs (params : Params) (ignore : List String) (kv : String × Value)
    (h : kv ∈ keptPairs params ignore) :
    (kv.1, some kv.2) ∈ params ∧ ignore.contains kv.1 = false := by
  obtain ⟨kk, vv⟩ := kv
  simp only [keptPairs, List.mem_filterMap] at h
  obtain ⟨⟨k0, v0⟩, ha, hfa⟩ := h
  rcases v0 with _ | v1
  · cases hfa
  · dsimp only at hfa
    by_cases hig : ignore.contains k0 = true
    · rw [if_pos hig] at hfa
      cases hfa
    · rw [if_neg hig] at hfa
      injection hfa with e
      injection e with e1 e2
      subst e1
      subst e2
      exact ⟨ha, by simpa using hig⟩

theorem keptPairs_get (params : Params) (ignore : List String)
    (hnd : (params.map Prod.fst).Nodup) :
    ∀ kv ∈ keptPairs params ignore, paramsGet params kv.1 = some kv.2 := by
  intro kv hkv
  exact paramsGet_of_mem params kv.1 (some kv.2) hnd (mem_keptPairs params ignore kv hkv).1

theorem realm_params_eq_keptPairs (params : Params) (ignore : List String)
    (hnd : (params.map Prod.fst).Nodup) :
    realm_params params ignore = (keptPairs params ignore).map Prod.fst := by
  induction params with
  | nil => rfl
  | cons kv rest ih =>
      obtain ⟨k, v⟩ := kv
      simp only [List.map_cons, List.nodup_cons] at hnd
      have hfilter : (rest.map Prod.fst).filter
            (fun x => !(ignore.contains x) && (paramsGet ((k, v) :: rest) x).isSome)
          = (rest.map Prod.fst).filter
            (fun x => !(ignore.contains x) && (paramsGet rest x).isSome) := by
        apply List.filter_congr
        intro x hx
        have hne : ¬ k = x := fun hh => hnd.1 (hh ▸ hx)
        simp [paramsGet, hne]
      have hrest := ih hnd.2
      rcases v with _ | v1
      · have hhead : (!(ignore.contains k) && (paramsGet ((k, none) :: rest) k).isSome)
            = false := by
          simp [paramsGet]
        simp only [realm_params, List.map_cons, List.filter_cons] at *
        rw [hhead]
        simp only [Bool.false_eq_true, if_false, keptPairs, List.filterMap_cons]
        rw [hfilter]
        simpa [keptPairs] using hrest
      · by_cases hig : ignore.contains k = true
        · have hmem : k ∈ ignore := by simpa using hig
          have hkp : keptPairs ((k, some v1) :: rest) ignore = keptPairs rest ignore := by
            simp [keptPairs, hmem]
          have hhead : (!(ignore.contains k) && (paramsGet ((k, some v1) :: rest) k).isSome)
              = false := by simp [paramsGet, hmem]
          calc realm_params ((k, some v1) :: rest) ignore
              = (rest.map Prod.fst).filter
                  (fun x => !(ignore.contains x)
                    && (paramsGet ((k, some v1) :: rest) x).isSome) := by
                simp only [realm_params, List.map_cons, List.filter_cons, hhead,
                  Bool.false_eq_true, if_false]
            _ = (rest.map Prod.fst).filter
                  (fun x => !(ignore.contains x) && (paramsGet rest x).isSome) := hfilter
            _ = realm_params rest ignore := rfl
            _ = (keptPairs rest ignore).map Prod.fst := hrest
            _ = (keptPairs ((k, some v1) :: rest) ignore).map Prod.fst := by rw [hkp]
        · have hmem : k ∉ ignore := by simpa using hig
          have hkp : keptPairs ((k, some v1) :: rest) ignore
              = (k, v1) :: keptPairs rest ignore := by
            simp [keptPairs, hmem]
          have hhead : (!(ignore.contains k) && (paramsGet ((k, some v1) :: rest) k).isSome)
              = true := by simp [paramsGet, hmem]
          calc realm_params ((k, some v1) :: rest) ignore
              = k :: (rest.map Prod.fst).filter
                  (fun x => !(ignore.contains x)
                    && (paramsGet ((k, some v1) :: rest) x).isSome) := by
                simp only [realm_params, List.map_cons, List.filter_cons, hhead, if_true]
            _ = k :: (rest.map Prod.fst).filter
                  (fun x => !(ignore.contains x) && (paramsGet rest x).isSome) := by
                rw [hfilter]
            _ = k :: realm_params rest ignore := rfl
            _ = k :: (keptPairs rest ignore).map Prod.fst := by rw [hrest]
            _ = (keptPairs ((k, some v1) :: rest) ignore).map Prod.fst := by
                rw [hkp]
                rfl

theorem buildChangeset_append (params : Params) (pairs : List (String × Value)) :
    ∀ acc : RealmRep,
    (∀ kv ∈ pairs, paramsGet params kv.1 = some kv.2) →
    ((pairs.map (fun kv => camel kv.1)).Nodup) →
    (∀ kv ∈ pairs, camel kv.1 ∉ acc.map Prod.fst) →
    buildChangeset params (pairs.map Prod.fst) acc
      = acc ++ pairs.map (fun kv => (camel kv.1, kv.2)) := by
  induction pairs with
  | nil => intro acc _ _ _; simp [buildChangeset]
  | cons kv rest ih =>
      intro acc hget hnd hfresh
      obtain ⟨k, v⟩ := kv
      simp only [List.map_cons, List.nodup_cons] at hnd
      have h1 : paramsGet params k = some v := hget (k, v) (by simp)
      have hstep : pySet acc (camel k) v = acc ++ [(camel k, v)] :=
        pySet_of_not_mem acc (camel k) v (hfresh (k, v) (by simp))
      have hfresh2 : ∀ kv2 ∈ rest, camel kv2.1 ∉ (acc ++ [(camel k, v)]).map Prod.fst := by
        intro kv2 hkv2
        simp only [List.map_append, List.mem_append, List.map_cons, List.map_nil,
          List.mem_singleton]
        push_neg
        refine ⟨hfresh kv2 (by simp [hkv2]), ?_⟩
        intro heq
        exact hnd.1 (heq ▸ List.mem_map_of_mem (fun kv3 => camel kv3.1) hkv2)
      have hget2 : ∀ kv2 ∈ rest, paramsGet params kv2.1 = some kv2.2 :=
        fun kv2 hkv2 => hget kv2 (by simp [hkv2])
      calc buildChangeset params (k :: rest.map Prod.fst) acc
          = buildChangeset params (rest.map Prod.fst) (acc ++ [(camel k, v)]) := by
            simp only [buildChangeset, h1, hstep]
        _ = (acc ++ [(camel k, v)]) ++ rest.map (fun kv2 => (camel kv2.1, kv2.2)) :=
            ih (acc ++ [(camel k, v)]) hget2 hnd.2 hfresh2
        _ = acc ++ ((camel k, v) :: rest.map (fun kv2 => (camel kv2.1, kv2.2))) := by
            simp

theorem computeChangeset_spec (params : Params) (ignore : List String)
    (hnd : (params.map Prod.fst).Nodup)
    (hinj : ((keptPairs params ignore).map (fun kv => camel kv.1)).Nodup) :
    computeChangeset params ignore
      = (keptPairs params ignore).map (fun kv => (camel kv.1, kv.2)) := by
  unfold computeChangeset
  rw [realm_params_eq_keptPairs params ignore hnd]
  have h := buildChangeset_append params (keptPairs params ignore) []
    (keptPairs_get params ignore hnd) hinj (fun kv _ => by simp)
  simpa using h

/-! ### Claim theorems -/

/-- C1: On the update path (realm present, state `present`): in check mode the
reported `changed` flag is false exactly when the merged desired state is
structurally equal to the existing representation; in real-run mode the update
call is always issued unconditionally, and the pre-reported `changed=true` is
downgraded to false exactly when the re-fetched post-action state is
structurally equal to the existing representation. -/
theorem claim1_update_changed_semantics (dm : Bool) (realm : Option Value)
    (before cs rf : RealmRep) (hb : before.isEmpty = false) :
    (changedOf (reconcile true dm "present" realm (some before) cs rf).1 = some false
       ↔ dictEq before (pyUpdate before cs) = true)
  ∧ ApiCall.updateRealm (pyUpdate before cs) realm
      ∈ (reconcile false dm "present" realm (some before) cs rf).2
  ∧ (∀ idv, findVal "id" (pyUpdate before cs) = some idv →
      (changedOf (reconcile false dm "present" realm (some before) cs rf).1 = some false
        ↔ dictEq before rf = true)) := by
  refine ⟨?_, ?_, ?_⟩
  · rw [reconcile_update_check dm realm before cs rf hb]
    rcases he : dictEq before (pyUpdate before cs) with _ | _ <;>
      simp [changedOf, resultOf, he]
  · rcases hid : findVal "id" (pyUpdate before cs) with _ | idv
    · rw [reconcile_update_real_noid dm realm before cs rf hb hid]
      simp
    · rw [reconcile_update_real_id dm realm before cs rf idv hb hid]
      simp
  · intro idv hid
    rw [reconcile_update_real_id dm realm before cs rf idv hb hid]
    rcases he : dictEq before rf with _ | _ <;> simp [changedOf, resultOf, he]

theorem claim1_update_changed_semantics_witness :
    changedOf (reconcile true false "present" none
        (some [("id", Value.vstr "master")]) [] []).1 = some false
    ∧ ApiCall.updateRealm (pyUpdate [("id", Value.vstr "master")] []) none
        ∈ (reconcile false false "present" none
            (some [("id", Value.vstr "master")]) [] []).2
    ∧ changedOf (reconcile false false "present" none
        (some [("id", Value.vstr "master")]) [] [("id", Value.vstr "master")]).1
        = some false := by
  have h1 := claim1_update_changed_semantics false none
    [("id", Value.vstr "master")] [] [] rfl
  have h2 := claim1_update_changed_semantics false none
    [("id", Value.vstr "master")] [] [("id", Value.vstr "master")] rfl
  exact ⟨h1.1.mpr rfl, h1.2.1, (h2.2.2 (Value.vstr "master") rfl).mpr rfl⟩

/-- C2: the merged desired state is the existing representation overlaid
key-by-key with the changeset (changeset winning on collisions, other existing
keys kept); the spec's concrete merge example holds, and merging into an empty
existing representation yields the changeset itself. -/
theorem claim2_merge_semantics (d c : RealmRep) (hc : (c.map Prod.fst).Nodup) :
    (∀ k, findVal k (pyUpdate d c) = firstSome (findVal k c) (findVal k d))
  ∧ pyUpdate [("a", Value.vint 1), ("b", Value.vint 2)]
      [("b", Value.vint 3), ("c", Value.vint 4)]
      = [("a", Value.vint 1), ("b", Value.vint 3), ("c", Value.vint 4)]
  ∧ pyUpdate [] c = c := by
  refine ⟨findVal_pyUpdate c d hc, rfl, ?_⟩
  have h := pyUpdate_disjoint c [] hc (by simp)
  simpa using h

theorem claim2_merge_semantics_witness :
    findVal "b" (pyUpdate [("a", Value.vint 1)] [("b", Value.vint 2)])
      = firstSome (findVal "b" [("b", Value.vint 2)]) (findVal "b" [("a", Value.vint 1)])
    ∧ pyUpdate ([] : RealmRep) [("b", Value.vint 2)] = [("b", Value.vint 2)] :=
  ⟨(claim2_merge_semantics [("a", Value.vint 1)] [("b", Value.vint 2)] (by decide)).1 "b",
   (claim2_merge_semantics [("a", Value.vint 1)] [("b", Value.vint 2)] (by decide)).2.2⟩

/-- C3: a check-mode invocation never issues a state-mutating API call
(create, update or delete), on any branch, for any input. -/
theorem claim3_check_mode_no_mutation (dm : Bool) (state : String) (realm : Option Value)
    (fetched : Option RealmRep) (cs rf : RealmRep) :
    mutatingCalls (reconcile true dm state realm fetched cs rf).2 = [] := by
  by_cases hemp : (fetched.getD []).isEmpty = true
  · by_cases hst : (state == "absent") = true
    · cases dm <;> simp [reconcile, hemp, hst, mutatingCalls, isMutating]
    · rcases hid : findVal "id" (pyUpdate (fetched.getD []) cs) with _ | idv <;>
        cases dm <;> simp [reconcile, hemp, hst, hid, mutatingCalls, isMutating]
  · by_cases hst : (state == "present") = true
    · cases dm <;> simp [reconcile, hemp, hst, mutatingCalls, isMutating]
    · cases dm <;> simp [reconcile, hemp, hst, mutatingCalls, isMutating]

/-- C4: the `changed` flag predicted by a check-mode run equals the `changed`
flag of a real run with the same changeset against the same existing state,
with the real run's re-fetch returning the merged desired state (a remote
system that faithfully persists writes, no concurrent mutation); stated on all
four branches.  The update and delete conjuncts assume the representation read
by the message formatting carries the `id` attribute, as any realm
representation produced by the remote system does. -/
theorem claim4_dry_run_fidelity (dm : Bool) (realm : Option Value)
    (before cs : RealmRep) :
    (changedOf (reconcile true dm "absent" realm none cs []).1
       = changedOf (reconcile false dm "absent" realm none cs []).1)
  ∧ (∀ rf, changedOf (reconcile true dm "present" realm none cs rf).1
       = changedOf (reconcile false dm "present" realm none cs rf).1)
  ∧ (before.isEmpty = false → ∀ idv, findVal "id" (pyUpdate before cs) = some idv →
      changedOf (reconcile true dm "present" realm (some before) cs
          (pyUpdate before cs)).1
        = changedOf (reconcile false dm "present" realm (some before) cs
          (pyUpdate before cs)).1)
  ∧ (before.isEmpty = false → ∀ idv, findVal "id" before = some idv →
      changedOf (reconcile true dm "absent" realm (some before) cs []).1
        = changedOf (reconcile false dm "absent" realm (some before) cs []).1) := by
  refine ⟨?_, ?_, ?_, ?_⟩
  · rw [reconcile_absent_absent true dm realm cs [],
      reconcile_absent_absent false dm realm cs []]
  · intro rf
    rcases hid : findVal "id" (pyUpdate [] cs) with _ | idv
    · rw [reconcile_create_fail true dm realm cs rf hid,
        reconcile_create_fail false dm realm cs rf hid]
    · rw [reconcile_create_check dm realm cs rf idv hid,
        reconcile_create_real dm realm cs rf idv hid]
      rfl
  · intro hb idv hid
    rw [reconcile_update_check dm realm before cs (pyUpdate before cs) hb,
      reconcile_update_real_id dm realm before cs (pyUpdate before cs) idv hb hid]
    rfl
  · intro hb idv hid
    rw [reconcile_delete_check dm realm before cs [] hb,
      reconcile_delete_real_id dm realm before cs [] idv hb hid]
    rfl

theorem claim4_dry_run_fidelity_witness :
    changedOf (reconcile true false "present" none (some [("id", Value.vstr "m")]) []
        (pyUpdate [("id", Value.vstr "m")] [])).1
      = changedOf (reconcile false false "present" none (some [("id", Value.vstr "m")]) []
        (pyUpdate [("id", Value.vstr "m")] [])).1
    ∧ changedOf (reconcile true false "absent" none (some [("id", Value.vstr "m")]) [] []).1
      = changedOf (reconcile false false "absent" none (some [("id", Value.vstr "m")]) [] []).1 :=
  ⟨(claim4_dry_run_fidelity false none [("id", Value.vstr "m")] []).2.2.1 rfl
      (Value.vstr "m") rfl,
   (claim4_dry_run_fidelity false none [("id", Value.vstr "m")] []).2.2.2 rfl
      (Value.vstr "m") rfl⟩

/-- C5: on the create path (realm absent, state `present`), a merged desired
state without the `id` attribute makes the invocation fail with the validation
error before any mutating call is attempted, in both modes. -/
theorem claim5_create_requires_id (check dm : Bool) (realm : Option Value)
    (cs rf : RealmRep) (hid : findVal "id" (pyUpdate [] cs) = none) :
    (reconcile check dm "present" realm none cs rf)
      = (.failJson "id needs to be specified when creating a new realm",
         [ApiCall.getRealmById realm])
    ∧ mutatingCalls (reconcile check dm "present" realm none cs rf).2 = [] := by
  have h := reconcile_create_fail check dm realm cs rf hid
  refine ⟨h, ?_⟩
  rw [h]
  rfl

theorem claim5_create_requires_id_witness :
    reconcile false false "present" none none [("enabled", Value.vbool true)] []
      = (.failJson "id needs to be specified when creating a new realm",
         [ApiCall.getRealmById none])
    ∧ mutatingCalls (reconcile false false "present" none none
        [("enabled", Value.vbool true)] []).2 = [] :=
  claim5_create_requires_id false false none [("enabled", Value.vbool true)] [] rfl

/-- C6 counterexample: on the absent+absent no-op path with a non-empty
changeset, the reported `proposed` is the sanitized changeset, not the empty
mapping (line 729 sets it before the early exit at line 742). -/
theorem claim6_noop_counterexample :
    (resultOf (reconcile false false "absent" none none
        [("enabled", Value.vbool true)] []).1).map ModuleResult.proposed
      = some [("enabled", Value.vbool true)]
    ∧ (resultOf (reconcile false false "absent" none none
        [("enabled", Value.vbool true)] []).1).map ModuleResult.proposed
      ≠ some ([] : RealmRep)
    ∧ changedOf (reconcile false false "absent" none none
        [("enabled", Value.vbool true)] []).1 = some false
    ∧ (resultOf (reconcile false false "absent" none none
        [("enabled", Value.vbool true)] []).1).map ModuleResult.end_state
      = some [] := by
  refine ⟨rfl, ?_, rfl, rfl⟩
  intro h
  rw [show (resultOf (reconcile false false "absent" none none
      [("enabled", Value.vbool true)] []).1).map ModuleResult.proposed
    = some [("enabled", Value.vbool true)] from rfl] at h
  injection h with h1
  cases h1

/-- C6 (amended): when the realm is absent and state is `absent`, the run is a
no-op: it reports changed=false, the no-op message, empty existing and
end_state, and `proposed` equal to the sanitized changeset (empty only when
the changeset is empty); no mutating call is ever issued. -/
theorem claim6_amended_noop (check dm : Bool) (realm : Option Value) (cs rf : RealmRep) :
    reconcile check dm "absent" realm none cs rf
      = (.exitJson { changed := false
                     msg := "Realm does not exist, doing nothing."
                     diff := if dm then DiffVal.mk .emptyStr .emptyStr else .unset
                     proposed := sanitize_cr cs
                     existing := []
                     end_state := [] },
         [ApiCall.getRealmById realm])
    ∧ mutatingCalls (reconcile check dm "absent" realm none cs rf).2 = [] := by
  have h := reconcile_absent_absent check dm realm cs rf
  refine ⟨h, ?_⟩
  rw [h]
  rfl

/-- C7: the sanitizer masks a top-level `secret` and the nested
`saml.signing.private.key` under `attributes`, leaves every other top-level
key unchanged (non-mutating copy); every representation placed into a
reported result field or diff is redaction-safe; and the check-mode update
comparison is computed from the unsanitized representations. -/
theorem claim7_sanitization (r : RealmRep) (check dm : Bool) (state : String)
    (realm : Option Value) (fetched : Option RealmRep) (cs rf : RealmRep) :
    maskedOK (sanitize_cr r)
  ∧ (∀ k, ¬ k = "secret" → ¬ k = "attributes" →
      findVal k (sanitize_cr r) = findVal k r)
  ∧ outcomeFieldsOK (reconcile check dm state realm fetched cs rf).1
  ∧ (∀ before : RealmRep, before.isEmpty = false →
      changedOf (reconcile true dm "present" realm (some before) cs rf).1
        = some (!(dictEq before (pyUpdate before cs)))) :=
  ⟨maskedOK_sanitize r,
   fun k hks hka => findVal_sanitize_other r k hks hka,
   outcomeFieldsOK_reconcile check dm state realm fetched cs rf,
   fun before hb => by
     rw [reconcile_update_check dm realm before cs rf hb]
     rfl⟩

theorem claim7_sanitization_witness :
    findVal "enabled" (sanitize_cr [("enabled", Value.vbool true), ("secret", Value.vstr "s")])
      = findVal "enabled" [("enabled", Value.vbool true), ("secret", Value.vstr "s")]
    ∧ changedOf (reconcile true false "present" none (some [("a", Value.vint 1)]) [] []).1
      = some (!(dictEq [("a", Value.vint 1)] (pyUpdate [("a", Value.vint 1)] []))) :=
  ⟨(claim7_sanitization [("enabled", Value.vbool true), ("secret", Value.vstr "s")]
      false false "present" none none [] []).2.1 "enabled" (by decide) (by decide),
   (claim7_sanitization [] false false "present" none none [] []).2.2.2
      [("a", Value.vint 1)] rfl⟩

/-- C8: the computed changeset is exactly the caller-supplied parameters that
are non-null and outside the exclusion set (connection/auth names plus
`state`), with each key renamed to camelCase and each value carried over
unchanged. -/
theorem claim8_changeset_mapping (params : Params)
    (hnd : (params.map Prod.fst).Nodup)
    (hinj : ((keptPairs params params_to_ignore).map (fun kv => camel kv.1)).Nodup) :
    computeChangeset params params_to_ignore
      = (keptPairs params params_to_ignore).map (fun kv => (camel kv.1, kv.2))
    ∧ (computeChangeset params params_to_ignore).map Prod.fst
      = (keptPairs params params_to_ignore).map (fun kv => camel kv.1) := by
  have h := computeChangeset_spec params params_to_ignore hnd hinj
  refine ⟨h, ?_⟩
  rw [h, List.map_map]
  rfl

theorem claim8_changeset_mapping_witness :
    computeChangeset
      [("state", some (Value.vstr "present")), ("auth_username", some (Value.vstr "admin")),
       ("realm", some (Value.vstr "master")), ("ssl_required", some (Value.vstr "all")),
       ("enabled", none)] params_to_ignore
      = [("realm", Value.vstr "master"), ("sslRequired", Value.vstr "all")] := by
  have h := (claim8_changeset_mapping
    [("state", some (Value.vstr "present")), ("auth_username", some (Value.vstr "admin")),
     ("realm", some (Value.vstr "master")), ("ssl_required", some (Value.vstr "all")),
     ("enabled", none)] (by decide) (by decide)).1
  rw [h]
  rfl

/-- C9 counterexample: the declared required_one_of groups accept a parameter
set that supplies only `enabled` (plus a token), with both `id` and `realm`
absent. -/
theorem claim9_precondition_counterexample :
    requiredOneOf realmRequiredOneOf
      [("enabled", some (Value.vbool true)), ("token", some (Value.vstr "t"))] = true
    ∧ paramsGet [("enabled", some (Value.vbool true)), ("token", some (Value.vstr "t"))]
        "id" = none
    ∧ paramsGet [("enabled", some (Value.vbool true)), ("token", some (Value.vstr "t"))]
        "realm" = none :=
  ⟨rfl, rfl, rfl⟩

/-- C9 (amended): the required-precondition check guarantees that at least one
of `id`, `realm`, `enabled` is supplied (the first required_one_of group is
`[id, realm, enabled]`, so `id` and `realm` can both be absent when `enabled`
is given). -/
theorem claim9_precondition_amended (params : Params)
    (h : requiredOneOf realmRequiredOneOf params = true) :
    (paramsGet params "id").isSome = true
    ∨ (paramsGet params "realm").isSome = true
    ∨ (paramsGet params "enabled").isSome = true := by
  simp only [requiredOneOf, realmRequiredOneOf, List.all_cons, List.all_nil,
    List.any_cons, List.any_nil, Bool.and_eq_true, Bool.or_eq_true] at h
  tauto

theorem claim9_precondition_amended_witness :
    (paramsGet [("enabled", some (Value.vbool true)), ("token", some (Value.vstr "t"))]
        "id").isSome = true
    ∨ (paramsGet [("enabled", some (Value.vbool true)), ("token", some (Value.vstr "t"))]
        "realm").isSome = true
    ∨ (paramsGet [("enabled", some (Value.vbool true)), ("token", some (Value.vstr "t"))]
        "enabled").isSome = true :=
  claim9_precondition_amended
    [("enabled", some (Value.vbool true)), ("token", some (Value.vstr "t"))] rfl

/-- C10: on the delete path, `proposed` differs between modes: a check-mode
delete reports the sanitized changeset (the early exit at line 805 precedes
the reset), while a real-run delete reports the empty mapping (the reset at
line 810). -/
theorem claim10_delete_proposed_modes (dm : Bool) (realm : Option Value)
    (before cs rf : RealmRep) (hb : before.isEmpty = false) :
    (resultOf (reconcile true dm "absent" realm (some before) cs rf).1).map
        ModuleResult.proposed = some (sanitize_cr cs)
  ∧ (∀ idv, findVal "id" before = some idv →
      (resultOf (reconcile false dm "absent" realm (some before) cs rf).1).map
          ModuleResult.proposed = some []) := by
  constructor
  · rw [reconcile_delete_check dm realm before cs rf hb]
    rfl
  · intro idv hid
    rw [reconcile_delete_real_id dm realm before cs rf idv hb hid]
    rfl

theorem claim10_delete_proposed_modes_witness :
    (resultOf (reconcile true false "absent" none (some [("id", Value.vstr "m")])
        [("enabled", Value.vbool true)] []).1).map ModuleResult.proposed
      = some (sanitize_cr [("enabled", Value.vbool true)])
    ∧ (resultOf (reconcile false false "absent" none (some [("id", Value.vstr "m")])
        [("enabled", Value.vbool true)] []).1).map ModuleResult.proposed
      = some [] :=
  ⟨(claim10_delete_proposed_modes false none [("id", Value.vstr "m")]
      [("enabled", Value.vbool true)] [] rfl).1,
   (claim10_delete_proposed_modes false none [("id", Value.vstr "m")]
      [("enabled", Value.vbool true)] [] rfl).2 (Value.vstr "m") rfl⟩
